import Mathlib

/-!
Verification of the tech-challenge frontend core against its specification.

The definitions below are a shallow embedding of the TypeScript sources:
- src/starter-code/frontend/src/context/AppStateContext.tsx (app reducer, cart)
- src/starter-code/frontend/src/hooks/useSSEConnection.ts (SSE state, chunks)
- FunctionCallRenderer (dynamic function-call dispatch and error banners)

JavaScript numbers are modelled as rationals, JS array helpers
(map with index, findIndex, slice, filter) as the list operations below.
-/

namespace TechChallenge

/-- Embedding of the JS `Array.prototype.map((x, i) => ...)` idiom, with the
index threaded from a starting offset. -/
def mapWithIndexFrom (i : Nat) (f : Nat → α → β) : List α → List β
  | [] => []
  | a :: l => f i a :: mapWithIndexFrom (i + 1) f l

/-- JS `arr.map((x, i) => f i x)`. -/
def mapWithIndex (f : Nat → α → β) (l : List α) : List β :=
  mapWithIndexFrom 0 f l

/-- Embedding of JS `Array.prototype.findIndex`; `none` plays the role of the
sentinel `-1` (the source only tests `index >= 0`). -/
def findIndexFrom (i : Nat) (p : α → Bool) : List α → Option Nat
  | [] => none
  | a :: l => if p a then some i else findIndexFrom (i + 1) p l

/-- JS `arr.findIndex(p)` as an optional index. -/
def findIndex? (p : α → Bool) (l : List α) : Option Nat :=
  findIndexFrom 0 p l

/-! ## Data model: AppStateContext.tsx -/

/-- `Product` interface (AppStateContext.tsx). Only the fields the reducer
touches are semantically relevant; the rest are carried verbatim. -/
structure Product where
  id : String
  name : String
  description : String
  price : ℚ
  category : String
  image_url : String
  in_stock : Bool
deriving Repr, DecidableEq

/-- `CartItem` interface (AppStateContext.tsx). -/
structure CartItem where
  id : String
  product_id : String
  product_name : String
  quantity : ℚ
  unit_price : ℚ
  total_price : ℚ
deriving Repr, DecidableEq

/-- `AppState` interface (AppStateContext.tsx). -/
structure AppState where
  sessionId : Option String
  searchResults : List Product
  searchHistory : List String
  cartItems : List CartItem
  cartTotal : ℚ
  isLoading : Bool
  error : Option String
deriving Repr, DecidableEq

/-- `AppAction` discriminated union (AppStateContext.tsx). -/
inductive AppAction where
  | SET_SESSION_ID (payload : String)
  | SET_SEARCH_RESULTS (payload : List Product)
  | ADD_SEARCH_QUERY (payload : String)
  | ADD_TO_CART (payload : CartItem)
  | UPDATE_CART_ITEM (id : String) (quantity : ℚ)
  | REMOVE_FROM_CART (payload : String)
  | CLEAR_CART
  | SET_LOADING (payload : Bool)
  | SET_ERROR (payload : Option String)
deriving Repr, DecidableEq

/-- `initialState` (AppStateContext.tsx). -/
def initialState : AppState :=
  { sessionId := none
    searchResults := []
    searchHistory := []
    cartItems := []
    cartTotal := 0
    isLoading := false
    error := none }

/-- `items.reduce((sum, item) => sum + item.total_price, 0)` from the reducer. -/
def cartSum (items : List CartItem) : ℚ :=
  items.foldl (fun sum item => sum + item.total_price) 0

/-- `appReducer` (AppStateContext.tsx, lines 72-174), translated case by case. -/
def appReducer (state : AppState) (action : AppAction) : AppState :=
  match action with
  | .SET_SESSION_ID payload =>
      { state with sessionId := some payload }
  | .SET_SEARCH_RESULTS payload =>
      { state with searchResults := payload }
  | .ADD_SEARCH_QUERY payload =>
      let newHistory := payload :: state.searchHistory.filter (fun q => q != payload)
      { state with searchHistory := newHistory.take 10 }
  | .ADD_TO_CART payload =>
      let existingItemIndex :=
        findIndex? (fun item => item.product_id == payload.product_id) state.cartItems
      let updatedItems :=
        match existingItemIndex with
        | some i =>
            mapWithIndex (fun index item =>
              if index = i then
                { item with
                    quantity := item.quantity + payload.quantity
                    total_price := (item.quantity + payload.quantity) * item.unit_price }
              else item) state.cartItems
        | none => state.cartItems ++ [payload]
      let newTotal := cartSum updatedItems
      { state with cartItems := updatedItems, cartTotal := newTotal }
  | .UPDATE_CART_ITEM id quantity =>
      let updatedCartItems :=
        state.cartItems.map (fun item =>
          if item.id == id then
            { item with
                quantity := quantity
                total_price := quantity * item.unit_price }
          else item)
      let updatedTotal := cartSum updatedCartItems
      { state with cartItems := updatedCartItems, cartTotal := updatedTotal }
  | .REMOVE_FROM_CART payload =>
      let filteredItems := state.cartItems.filter (fun item => item.id != payload)
      let filteredTotal := cartSum filteredItems
      { state with cartItems := filteredItems, cartTotal := filteredTotal }
  | .CLEAR_CART =>
      { state with cartItems := [], cartTotal := 0 }
  | .SET_LOADING payload =>
      { state with isLoading := payload }
  | .SET_ERROR payload =>
      { state with error := payload }

/-- A sequence of dispatched actions, applied in order from a state. -/
def applyActions (s : AppState) (actions : List AppAction) : AppState :=
  actions.foldl appReducer s

/-! ### Public context actions (AppStateContext.tsx, lines 247-269) -/

/-- `Omit<CartItem, 'id'>`: the argument of the public `addToCart` action. -/
structure NewCartItem where
  product_id : String
  product_name : String
  quantity : ℚ
  unit_price : ℚ
  total_price : ℚ
deriving Repr, DecidableEq

/-- The public context operations exposed by `AppStateProvider`. The `addToCart`
wrapper generates a fresh id string (from the clock and a random suffix); the
generated string is supplied here as an explicit argument. -/
inductive ContextOp where
  | addToCart (freshId : String) (item : NewCartItem)
  | updateCartItem (id : String) (quantity : ℚ)
  | removeFromCart (id : String)
  | clearCart
deriving Repr, DecidableEq

/-- The public context actions, dispatching to `appReducer` exactly as the
provider does; `updateCartItem` turns a non-positive quantity into a removal. -/
def runOp (s : AppState) (op : ContextOp) : AppState :=
  match op with
  | .addToCart freshId item =>
      appReducer s (.ADD_TO_CART
        { id := freshId
          product_id := item.product_id
          product_name := item.product_name
          quantity := item.quantity
          unit_price := item.unit_price
          total_price := item.total_price })
  | .updateCartItem id quantity =>
      if quantity ≤ 0 then appReducer s (.REMOVE_FROM_CART id)
      else appReducer s (.UPDATE_CART_ITEM id quantity)
  | .removeFromCart id => appReducer s (.REMOVE_FROM_CART id)
  | .clearCart => appReducer s .CLEAR_CART

/-- A sequence of public context operations applied in order. -/
def runOps (s : AppState) (ops : List ContextOp) : AppState :=
  ops.foldl runOp s

/-- Modelled from the spec: the cart summary computation lives in the backend,
which is not under src/; the spec states that the total is the subtotal (sum
of line totals) plus a fixed tax rate applied to the subtotal, and the backend
documentation fixes the rate at 10%. -/
structure CartSummary where
  subtotal : ℚ
  estimated_tax : ℚ
  estimated_total : ℚ
deriving Repr, DecidableEq

/-- Modelled from the spec: the fixed tax rate (10% per the backend docs). -/
def TAX_RATE : ℚ := 1 / 10

/-- Modelled from the spec: recompute the cart summary from the current lines. -/
def cartSummary (items : List CartItem) : CartSummary :=
  { subtotal := cartSum items
    estimated_tax := TAX_RATE * cartSum items
    estimated_total := cartSum items + TAX_RATE * cartSum items }

/-! ## useSSEConnection.ts: messages and text chunks -/

/-- The `type` field of the `Message` interface (useSSEConnection.ts). -/
inductive MessageType where
  | user
  | assistant
  | functionCall
  | errorMessage
deriving Repr, DecidableEq

/-- `Message` interface (useSSEConnection.ts); timestamps are abstract ticks. -/
structure Message where
  id : String
  type : MessageType
  content : String
  timestamp : Nat
deriving Repr, DecidableEq

/-- The assistant message `handleTextChunk` builds for a chunk, with the
generated id string and the clock reading supplied explicitly. -/
def mkAssistantMessage (newId : String) (now : Nat) (content : String) : Message :=
  { id := newId, type := .assistant, content := content, timestamp := now }

/-- `handleTextChunk` (useSSEConnection.ts, lines 211-247) acting on the
message list; `incremental` embeds the boolean field named `partial` in the
source event. A true flag extends the trailing assistant message in place
(via the map-over-last-index idiom) or starts one; a false flag always
appends a fresh assistant message. -/
def handleTextChunk (newId : String) (now : Nat) (prev : List Message)
    (content : String) (incremental : Bool) : List Message :=
  if incremental then
    match prev.getLast? with
    | some lastMessage =>
        if lastMessage.type == MessageType.assistant then
          mapWithIndex (fun index msg =>
            if index = prev.length - 1 then { msg with content := msg.content ++ content }
            else msg) prev
        else prev ++ [mkAssistantMessage newId now content]
    | none => prev ++ [mkAssistantMessage newId now content]
  else prev ++ [mkAssistantMessage newId now content]

/-! ## useSSEConnection.ts: connection state, backoff and reconnection -/

/-- `ConnectionStatus` union type (useSSEConnection.ts). -/
inductive ConnStatus where
  | connecting
  | connected
  | disconnected
  | errored
deriving Repr, DecidableEq

/-- The hook options relevant to reconnection (defaults 5 and 1000 in the
source), plus whether a session id is available to `connect`. -/
structure SSEConfig where
  maxReconnectAttempts : Nat
  baseReconnectDelay : Nat
  hasSession : Bool
deriving Repr, DecidableEq

/-- The mutable connection state of the hook: the attempt counter ref, the
pending reconnect timer (holding its delay), and the surfaced errors. -/
structure SSEState where
  reconnectAttempts : Nat
  pendingReconnectDelay : Option Nat
  connectionStatus : ConnStatus
  error : Option String
  onErrorCallback : Option String
deriving Repr, DecidableEq

/-- The initial hook state: counter 0, no timer, disconnected, no error. -/
def initialSSEState : SSEState :=
  { reconnectAttempts := 0
    pendingReconnectDelay := none
    connectionStatus := .disconnected
    error := none
    onErrorCallback := none }

/-- `connect` (useSSEConnection.ts, lines 98-193): no-op without a session id,
otherwise status becomes connecting and the error state is cleared. -/
def connectStep (cfg : SSEConfig) (s : SSEState) : SSEState :=
  if cfg.hasSession then
    { s with connectionStatus := .connecting, error := none }
  else s

/-- `scheduleReconnect` (useSSEConnection.ts, lines 298-306): stores a timer
whose delay is `baseReconnectDelay * 2 ^ reconnectAttempts`. -/
def scheduleReconnect (cfg : SSEConfig) (s : SSEState) : SSEState :=
  let delay := cfg.baseReconnectDelay * 2 ^ s.reconnectAttempts
  { s with pendingReconnectDelay := some delay }

/-- The observable transitions of the hook state machine. -/
inductive SSEEvent where
  | openFired        -- `eventSource.onopen`
  | errorFired       -- `eventSource.onerror` (network error, no payload)
  | timerFired       -- the timer set by `scheduleReconnect` fires
  | manualReconnect  -- the exported `reconnect()` helper
deriving Repr, DecidableEq

/-- One transition of the connection state machine, following the handlers in
useSSEConnection.ts: `onopen` (lines 114-119) resets the attempt counter;
`onerror` (lines 174-185) schedules a backoff retry while attempts remain and
otherwise surfaces the max-attempts error; the timer callback (lines 301-305)
increments the counter and reconnects; `reconnect` (lines 369-372) zeroes the
counter and reconnects. -/
def stepSSE (cfg : SSEConfig) (s : SSEState) (ev : SSEEvent) : SSEState :=
  match ev with
  | .openFired =>
      { s with connectionStatus := .connected, error := none, reconnectAttempts := 0 }
  | .errorFired =>
      let s := { s with connectionStatus := .errored }
      if s.reconnectAttempts < cfg.maxReconnectAttempts then
        scheduleReconnect cfg s
      else
        { s with
            error := some "Max reconnection attempts reached"
            onErrorCallback := some "Max reconnection attempts reached" }
  | .timerFired =>
      match s.pendingReconnectDelay with
      | some _ =>
          connectStep cfg
            { s with
                reconnectAttempts := s.reconnectAttempts + 1
                pendingReconnectDelay := none }
      | none => s
  | .manualReconnect =>
      connectStep cfg { s with reconnectAttempts := 0 }

/-- A trace of hook events applied in order. -/
def runSSE (cfg : SSEConfig) (s : SSEState) (evs : List SSEEvent) : SSEState :=
  evs.foldl (stepSSE cfg) s

/-! ## FunctionCallRenderer: dispatch, validation errors, fallbacks -/

/-- The `validation` object carried inside a function-call result; each field
may be absent in the underlying JSON. -/
structure ValidationInfo where
  valid : Option Bool
  validationError : Option String
  suggestions : Option (List String)
deriving Repr, DecidableEq

/-- The fields of the unwrapped result object (`raw`) that the renderer
inspects: truthiness of `raw.product`, the optional `raw.validation` object,
and `raw.error` when it is a string. -/
structure RawResult where
  productPresent : Bool
  validation : Option ValidationInfo
  stringError : Option String
deriving Repr, DecidableEq

/-- The empty object `{}`. -/
def emptyRawResult : RawResult :=
  { productPresent := false, validation := none, stringError := none }

/-- The `result` prop before unwrapping: either absent (null/undefined) or an
object with an optional truthy `data` field and its own fields. -/
inductive ResultVal where
  | absent
  | obj (dataField : Option RawResult) (ownFields : RawResult)
deriving Repr, DecidableEq

/-- `result?.data || result || {}` (FunctionCallRenderer). -/
def rawOf : ResultVal → RawResult
  | .absent => emptyRawResult
  | .obj (some d) _ => d
  | .obj none ownFields => ownFields

/-- The React components the lookup table can select. -/
inductive ComponentTag where
  | searchResults
  | productCard
  | cartNotification
  | recommendationGrid
  | cartView
deriving Repr, DecidableEq

/-- `FunctionComponents` lookup table (FunctionCallRenderer): the own keys of
the object literal. -/
def FunctionComponents : List (String × ComponentTag) :=
  [("search_products", .searchResults),
   ("show_product_details", .productCard),
   ("add_to_cart", .cartNotification),
   ("get_recommendations", .recommendationGrid),
   ("get_cart", .cartView),
   ("remove_from_cart", .cartView)]

/-- The properties every plain JS object literal inherits from
Object.prototype. Bracket access `FunctionComponents[name]` finds these when
no own key matches, and each yields a truthy value at runtime (a function,
or for `__proto__` the prototype object itself). -/
def objectPrototypeProps : List String :=
  ["constructor", "hasOwnProperty", "isPrototypeOf", "propertyIsEnumerable",
   "toLocaleString", "toString", "valueOf",
   "__defineGetter__", "__defineSetter__", "__lookupGetter__",
   "__lookupSetter__", "__proto__"]

/-- What `FunctionComponents[normalizedName]` can evaluate to when truthy: a
component stored as an own entry of the literal, or a value inherited from
Object.prototype through the chain walk of JS bracket access. -/
inductive LookedUpComponent where
  | own (tag : ComponentTag)
  | inherited (prop : String)
deriving Repr, DecidableEq

/-- JS bracket access on the `FunctionComponents` object literal: an own
entry wins; otherwise the prototype chain supplies a truthy inherited value
for the Object.prototype property names; anything else is undefined. -/
def jsObjectLookup (name : String) : Option LookedUpComponent :=
  match FunctionComponents.lookup name with
  | some tag => some (.own tag)
  | none =>
      if objectPrototypeProps.contains name then some (.inherited name) else none

/-- Whether `needle` is a prefix of `hay`, on character lists. -/
def charsStartWith : List Char → List Char → Bool
  | [], _ => true
  | _ :: _, [] => false
  | a :: as, b :: bs => a == b && charsStartWith as bs

/-- Whether `needle` occurs contiguously in the list, checked at every
suffix. -/
def charsContain (needle : List Char) : List Char → Bool
  | [] => charsStartWith needle []
  | a :: t => charsStartWith needle (a :: t) || charsContain needle t

/-- JS `String.prototype.includes`, on the underlying character data. -/
def containsSubstr (s needle : String) : Bool :=
  charsContain needle.data s.data

/-- JS `String.prototype.trim`: strip whitespace from both ends. -/
def jsTrim (s : String) : String :=
  String.mk (((s.data.dropWhile Char.isWhitespace).reverse.dropWhile
    Char.isWhitespace).reverse)

/-- Function-call parameters, carried opaquely as key/value pairs. -/
def Params := List (String × String)
deriving instance Repr, DecidableEq for Params

/-- What `FunctionCallRenderer` returns, as far as the claims observe it.
`inheritedRender` is the branch where bracket access found a truthy value on
Object.prototype instead of an own component: the code proceeds to render
that inherited value as a React component rather than the typed fallback. -/
inductive RenderOutput where
  | unknownFunction (name : String) (parameters : Params)
  | errorBanner (title : String) (message : String) (suggestionsShown : List String)
  | component (tag : ComponentTag)
  | inheritedRender (prop : String)
deriving Repr, DecidableEq

/-- `FunctionCallRenderer` (src/unnamed/part_001, lines 291-388): trim the
name, evaluate the JS bracket access `FunctionComponents[normalizedName]`
(own entry first, then the Object.prototype chain) with a cart-shaped
fallback, return the typed unknown-function element when nothing truthy was
found; otherwise surface a string `error` field as a generic banner, surface
a `show_product_details` validation failure (missing product or
`valid === false`) as the invalid-id banner with at most five suggestions,
and otherwise render the selected value: a real component for an own entry,
the inherited prototype value for a chain hit. -/
def renderFunctionCall (name : String) (parameters : Params)
    (result : ResultVal) : RenderOutput :=
  let normalizedName := jsTrim name
  let component : Option LookedUpComponent :=
    match jsObjectLookup normalizedName with
    | some c => some c
    | none =>
        if containsSubstr normalizedName "cart" then some (.own .cartView) else none
  match component with
  | none => .unknownFunction name parameters
  | some looked =>
      let raw := rawOf result
      match raw.stringError with
      | some genericError => .errorBanner "Validation Error" genericError []
      | none =>
          let hasValidationError :=
            normalizedName == "show_product_details" &&
              (!raw.productPresent ||
                (match raw.validation with
                 | some v => v.valid == some false
                 | none => false))
          if hasValidationError then
            let message :=
              (raw.validation.bind (fun v => v.validationError)).getD
                "Product not found or not in recent searches."
            let suggestions := (raw.validation.bind (fun v => v.suggestions)).getD []
            .errorBanner "Invalid Product ID" message (suggestions.take 5)
          else
            match looked with
            | .own tag => .component tag
            | .inherited prop => .inheritedRender prop

/-! ## AppStateContext.tsx: saved-session validation on mount -/

/-- The outcome of the fetch of the saved session context: a thrown network
error, or an HTTP response with a status code (`res.ok` is derived from the
code as in the fetch API). -/
inductive FetchOutcome where
  | networkError
  | http (status : Nat)
deriving Repr, DecidableEq

/-- `res.ok` of the fetch API: status in the range 200-299. -/
def responseOk (status : Nat) : Bool :=
  200 ≤ status && status < 300

/-- What `validateOrCreate` decides: keep the saved session id, or create a
fresh one (recording whether the saved id was removed from localStorage). -/
inductive SessionResolution where
  | useSaved (id : String)
  | createFresh (removedSavedId : Bool)
deriving Repr, DecidableEq

/-- `validateOrCreate` (AppStateContext.tsx, lines 280-313): no saved id means
create; 404/410 or any other non-OK status or a network failure drop the
saved id and create; only an OK response activates the saved id. -/
def validateOrCreate (savedSessionId : Option String)
    (res : FetchOutcome) : SessionResolution :=
  match savedSessionId with
  | none => .createFresh false
  | some id =>
      match res with
      | .networkError => .createFresh true
      | .http status =>
          if status == 404 || status == 410 then .createFresh true
          else if !responseOk status then .createFresh true
          else .useSaved id

/-! ## Helper lemmas about the JS array idioms -/

theorem mapWithIndexFrom_update_last (c : α) (f : α → α) :
    ∀ (l : List α) (k : Nat),
      mapWithIndexFrom k (fun i x => if i = k + l.length then f x else x) (l ++ [c])
        = l ++ [f c] := by
  intro l
  induction l with
  | nil =>
      intro k
      simp [mapWithIndexFrom]
  | cons a t ih =>
      intro k
      have harith : k + (a :: t).length = (k + 1) + t.length := by
        simp only [List.length_cons]
        omega
      simp only [List.cons_append, mapWithIndexFrom, harith, List.append_eq]
      rw [if_neg (by omega)]
      rw [ih (k + 1)]

theorem mapWithIndex_update_last (l : List α) (c : α) (f : α → α) :
    mapWithIndex (fun i x => if i = l.length then f x else x) (l ++ [c]) = l ++ [f c] := by
  have h := mapWithIndexFrom_update_last c f l 0
  simpa [mapWithIndex] using h

theorem mem_mapWithIndexFrom {y : β} (f : Nat → α → β) :
    ∀ (l : List α) (k : Nat), y ∈ mapWithIndexFrom k f l → ∃ j x, x ∈ l ∧ y = f j x := by
  intro l
  induction l with
  | nil =>
      intro k h
      simp [mapWithIndexFrom] at h
  | cons a t ih =>
      intro k h
      simp only [mapWithIndexFrom, List.mem_cons] at h
      rcases h with h | h
      · exact ⟨k, a, List.mem_cons_self a t, h⟩
      · rcases ih (k + 1) h with ⟨j, x, hx, hy⟩
        exact ⟨j, x, List.mem_cons_of_mem a hx, hy⟩

theorem mem_mapWithIndex {y : β} (f : Nat → α → β) (l : List α)
    (h : y ∈ mapWithIndex f l) : ∃ j x, x ∈ l ∧ y = f j x :=
  mem_mapWithIndexFrom f l 0 h

theorem findIndexFrom_eq_none (p : α → Bool) :
    ∀ (l : List α) (k : Nat), (∀ x ∈ l, p x = false) → findIndexFrom k p l = none := by
  intro l
  induction l with
  | nil =>
      intro k _
      rfl
  | cons a t ih =>
      intro k h
      simp only [findIndexFrom, h a (List.mem_cons_self a t)]
      simp only [Bool.false_eq_true, if_false]
      exact ih (k + 1) (fun x hx => h x (List.mem_cons_of_mem a hx))

theorem findIndex?_eq_none (p : α → Bool) (l : List α)
    (h : ∀ x ∈ l, p x = false) : findIndex? p l = none :=
  findIndexFrom_eq_none p l 0 h

theorem findIndexFrom_append_last (p : α → Bool) (c : α) (hc : p c = true) :
    ∀ (l : List α) (k : Nat), (∀ x ∈ l, p x = false) →
      findIndexFrom k p (l ++ [c]) = some (k + l.length) := by
  intro l
  induction l with
  | nil =>
      intro k _
      simp [findIndexFrom, hc]
  | cons a t ih =>
      intro k h
      simp only [List.cons_append, findIndexFrom, h a (List.mem_cons_self a t)]
      simp only [Bool.false_eq_true, if_false, List.append_eq]
      rw [ih (k + 1) (fun x hx => h x (List.mem_cons_of_mem a hx))]
      simp only [List.length_cons, Option.some.injEq]
      omega

theorem findIndex?_append_last (p : α → Bool) (c : α) (l : List α)
    (hc : p c = true) (h : ∀ x ∈ l, p x = false) :
    findIndex? p (l ++ [c]) = some l.length := by
  have := findIndexFrom_append_last p c hc l 0 h
  simpa [findIndex?] using this

/-! ## C1: cart subtotal and tax invariant -/

/-- The invariant tying the stored `cartTotal` to the current lines. -/
def cartTotalOk (s : AppState) : Prop :=
  s.cartTotal = cartSum s.cartItems

theorem appReducer_cartTotalOk (s : AppState) (a : AppAction)
    (h : cartTotalOk s) : cartTotalOk (appReducer s a) := by
  cases a <;> simp_all [appReducer, cartTotalOk, cartSum]

theorem applyActions_cartTotalOk :
    ∀ (actions : List AppAction) (s : AppState), cartTotalOk s →
      cartTotalOk (applyActions s actions) := by
  intro actions
  induction actions with
  | nil =>
      intro s h
      exact h
  | cons a t ih =>
      intro s h
      exact ih (appReducer s a) (appReducer_cartTotalOk s a h)

/-- C1: for every sequence of actions applied by `appReducer` from the initial
state, the stored `cartTotal` equals the sum of the current cart lines, and
the modelled cart summary total equals that subtotal plus the fixed tax rate
applied to it. -/
theorem cart_total_invariant (actions : List AppAction) :
    (applyActions initialState actions).cartTotal
        = cartSum (applyActions initialState actions).cartItems ∧
    (cartSummary (applyActions initialState actions).cartItems).estimated_total
        = (applyActions initialState actions).cartTotal
            + TAX_RATE * (applyActions initialState actions).cartTotal := by
  have h : cartTotalOk (applyActions initialState actions) :=
    applyActions_cartTotalOk actions initialState rfl
  unfold cartTotalOk at h
  refine ⟨h, ?_⟩
  simp only [cartSummary]
  rw [h]

/-! ## C3: merging add_to_cart calls on the same product -/

theorem addToCart_absent (s : AppState) (c : CartItem)
    (h : ∀ x ∈ s.cartItems, (x.product_id == c.product_id) = false) :
    (appReducer s (.ADD_TO_CART c)).cartItems = s.cartItems ++ [c] := by
  simp only [appReducer]
  rw [findIndex?_eq_none _ _ h]

/-- The updated line the reducer builds when an `ADD_TO_CART` payload hits an
existing line: quantities add up and the total is recomputed from the stored
unit price. -/
def mergeLine (c m : CartItem) : CartItem :=
  { m with
      quantity := m.quantity + c.quantity
      total_price := (m.quantity + c.quantity) * m.unit_price }

theorem addToCart_present_last (s : AppState) (l : List CartItem) (m c : CartItem)
    (hitems : s.cartItems = l ++ [m])
    (hl : ∀ x ∈ l, (x.product_id == c.product_id) = false)
    (hm : (m.product_id == c.product_id) = true) :
    (appReducer s (.ADD_TO_CART c)).cartItems = l ++ [mergeLine c m] := by
  simp only [appReducer, hitems]
  rw [findIndex?_append_last (fun item => item.product_id == c.product_id) m l hm hl]
  exact mapWithIndex_update_last l m (mergeLine c)

/-- C3: from a cart with no line for product id `P`, adding quantity 2 and then
quantity 3 of `P` at unit price `U` leaves exactly one line for `P`, with
quantity 5 and total_price `5 * U`. -/
theorem add_to_cart_merge_spec (s : AppState) (P id1 id2 name1 name2 : String) (U : ℚ)
    (hP : ∀ it ∈ s.cartItems, it.product_id ≠ P) :
    ((applyActions s
        [.ADD_TO_CART { id := id1, product_id := P, product_name := name1,
                        quantity := 2, unit_price := U, total_price := 2 * U },
         .ADD_TO_CART { id := id2, product_id := P, product_name := name2,
                        quantity := 3, unit_price := U, total_price := 3 * U }]).cartItems.filter
        (fun it => it.product_id == P))
      = [{ id := id1, product_id := P, product_name := name1,
           quantity := 5, unit_price := U, total_price := 5 * U }] := by
  have hfalse : ∀ x ∈ s.cartItems, (x.product_id == P) = false := by
    intro x hx
    simpa using hP x hx
  simp only [applyActions, List.foldl]
  rw [addToCart_present_last _ s.cartItems
        { id := id1, product_id := P, product_name := name1,
          quantity := 2, unit_price := U, total_price := 2 * U }
        { id := id2, product_id := P, product_name := name2,
          quantity := 3, unit_price := U, total_price := 3 * U }
        (addToCart_absent s _ hfalse) hfalse (by simp)]
  rw [List.filter_append]
  rw [List.filter_eq_nil_iff.mpr (by intro a ha; simp [hfalse a ha])]
  simp only [List.nil_append, mergeLine, List.filter]
  norm_num

theorem add_to_cart_merge_spec_witness :
    (∀ it ∈ initialState.cartItems, it.product_id ≠ "p1") ∧
    ((applyActions initialState
        [.ADD_TO_CART { id := "c1", product_id := "p1", product_name := "X",
                        quantity := 2, unit_price := 10, total_price := 2 * 10 },
         .ADD_TO_CART { id := "c2", product_id := "p1", product_name := "Y",
                        quantity := 3, unit_price := 10, total_price := 3 * 10 }]).cartItems.filter
        (fun it => it.product_id == "p1"))
      = [{ id := "c1", product_id := "p1", product_name := "X",
           quantity := 5, unit_price := 10, total_price := 5 * 10 }] :=
  ⟨by simp [initialState],
   add_to_cart_merge_spec initialState "p1" "c1" "c2" "X" "Y" 10 (by simp [initialState])⟩

/-! ## C4: well-formedness of cart lines under the public actions -/

/-- The spec invariant on a single cart line. -/
def lineOk (it : CartItem) : Prop :=
  0 < it.quantity ∧ it.total_price = it.quantity * it.unit_price

instance (it : CartItem) : Decidable (lineOk it) := by
  unfold lineOk
  infer_instance

/-- The precondition under which a public operation respects `lineOk`: an
`addToCart` payload must itself be a well-formed line; the other operations
are unconstrained. -/
def wellFormedOp : ContextOp → Prop
  | .addToCart _ item =>
      0 < item.quantity ∧ item.total_price = item.quantity * item.unit_price
  | _ => True

instance (op : ContextOp) : Decidable (wellFormedOp op) := by
  cases op <;> simp only [wellFormedOp] <;> infer_instance

theorem runOp_lineOk (s : AppState) (op : ContextOp)
    (hs : ∀ it ∈ s.cartItems, lineOk it) (hop : wellFormedOp op) :
    ∀ it ∈ (runOp s op).cartItems, lineOk it := by
  cases op with
  | addToCart freshId item =>
      intro it hit
      simp only [runOp, appReducer] at hit
      rcases hfind : findIndex? (fun x => x.product_id == item.product_id) s.cartItems with
        _ | i <;> rw [hfind] at hit <;> simp only at hit
      · rcases List.mem_append.mp hit with h | h
        · exact hs it h
        · rcases List.mem_singleton.mp h with rfl
          exact hop
      · rcases mem_mapWithIndex _ _ hit with ⟨j, x, hx, rfl⟩
        by_cases hji : j = i
        · simp only [hji, if_pos rfl]
          refine ⟨add_pos (hs x hx).1 hop.1, rfl⟩
        · simp only [if_neg hji]
          exact hs x hx
  | updateCartItem id quantity =>
      intro it hit
      simp only [runOp] at hit
      by_cases hq : quantity ≤ 0
      · rw [if_pos hq] at hit
        simp only [appReducer] at hit
        exact hs it (List.mem_of_mem_filter hit)
      · rw [if_neg hq] at hit
        simp only [appReducer] at hit
        rcases List.mem_map.mp hit with ⟨x, hx, rfl⟩
        by_cases hid : (x.id == id) = true
        · simp only [if_pos hid]
          exact ⟨lt_of_not_le hq, rfl⟩
        · simp only [if_neg hid]
          exact hs x hx
  | removeFromCart id =>
      intro it hit
      simp only [runOp, appReducer] at hit
      exact hs it (List.mem_of_mem_filter hit)
  | clearCart =>
      intro it hit
      simp only [runOp, appReducer] at hit
      exact absurd hit (List.not_mem_nil it)

theorem runOps_lineOk :
    ∀ (ops : List ContextOp) (s : AppState),
      (∀ it ∈ s.cartItems, lineOk it) → (∀ op ∈ ops, wellFormedOp op) →
      ∀ it ∈ (runOps s ops).cartItems, lineOk it := by
  intro ops
  induction ops with
  | nil =>
      intro s hs _
      exact hs
  | cons op t ih =>
      intro s hs hops
      exact ih (runOp s op)
        (runOp_lineOk s op hs (hops op (List.mem_cons_self op t)))
        (fun o ho => hops o (List.mem_cons_of_mem op ho))

/-- C4 (counterexample): the public `addToCart` accepts an arbitrary payload;
a payload with quantity 0 and an inconsistent total lands in the cart
unchanged, so the claimed invariant fails on a reachable state. -/
theorem cart_line_invariant_cex :
    (runOps initialState
        [.addToCart "cart_1"
          { product_id := "p1", product_name := "X",
            quantity := 0, unit_price := 1, total_price := 5 }]).cartItems
      = [{ id := "cart_1", product_id := "p1", product_name := "X",
           quantity := 0, unit_price := 1, total_price := 5 }] ∧
    ¬ lineOk { id := "cart_1", product_id := "p1", product_name := "X",
               quantity := 0, unit_price := 1, total_price := 5 } := by
  refine ⟨rfl, ?_⟩
  intro h
  exact lt_irrefl 0 h.1

/-- C4 (amended): every cart state reachable through the public context
actions satisfies quantity > 0 and total_price = quantity * unit_price on
every line, provided each `addToCart` payload itself satisfies them; the
other operations may take arbitrary arguments. -/
theorem cart_line_invariant_amended (ops : List ContextOp)
    (hops : ∀ op ∈ ops, wellFormedOp op) :
    ∀ it ∈ (runOps initialState ops).cartItems,
      0 < it.quantity ∧ it.total_price = it.quantity * it.unit_price := by
  intro it hit
  exact runOps_lineOk ops initialState (by simp [initialState]) hops it hit

theorem cart_line_invariant_amended_witness :
    (∀ op ∈ [ContextOp.addToCart "c1"
        { product_id := "p", product_name := "X",
          quantity := 2, unit_price := 3, total_price := 6 },
      ContextOp.updateCartItem "c1" 5],
      wellFormedOp op) ∧
    (∀ it ∈ (runOps initialState
        [ContextOp.addToCart "c1"
          { product_id := "p", product_name := "X",
            quantity := 2, unit_price := 3, total_price := 6 },
         ContextOp.updateCartItem "c1" 5]).cartItems,
      0 < it.quantity ∧ it.total_price = it.quantity * it.unit_price) := by
  have hops : ∀ op ∈ [ContextOp.addToCart "c1"
      { product_id := "p", product_name := "X",
        quantity := 2, unit_price := 3, total_price := 6 },
      ContextOp.updateCartItem "c1" 5], wellFormedOp op := by
    intro op hop
    simp only [List.mem_cons, List.not_mem_nil, or_false] at hop
    rcases hop with rfl | rfl
    · exact ⟨by norm_num, by norm_num⟩
    · trivial
  exact ⟨hops, cart_line_invariant_amended _ hops⟩

/-! ## C10: search history bound, uniqueness and recency -/

theorem addSearchQuery_history (s : AppState) (q : String) :
    (appReducer s (.ADD_SEARCH_QUERY q)).searchHistory
      = (q :: s.searchHistory.filter (fun x => x != q)).take 10 := rfl

theorem history_step_nodup (h : List String) (q : String) (hh : h.Nodup) :
    ((q :: h.filter (fun x => x != q)).take 10).Nodup := by
  refine (List.take_sublist 10 _).nodup ?_
  refine List.nodup_cons.mpr ⟨?_, hh.filter _⟩
  intro hmem
  have := (List.mem_filter.mp hmem).2
  simp at this

theorem history_step_len (h : List String) (q : String) :
    ((q :: h.filter (fun x => x != q)).take 10).length ≤ 10 := by
  simp [List.length_take]

theorem history_step_head (h : List String) (q : String) :
    ((q :: h.filter (fun x => x != q)).take 10).head? = some q := by
  rfl

theorem searchHistory_invariant_aux :
    ∀ (qs : List String) (s : AppState), s.searchHistory.Nodup →
      s.searchHistory.length ≤ 10 →
      (applyActions s (qs.map .ADD_SEARCH_QUERY)).searchHistory.Nodup ∧
      (applyActions s (qs.map .ADD_SEARCH_QUERY)).searchHistory.length ≤ 10 ∧
      (qs ≠ [] →
        (applyActions s (qs.map .ADD_SEARCH_QUERY)).searchHistory.head? = qs.getLast?) := by
  intro qs
  induction qs with
  | nil =>
      intro s hnd hlen
      exact ⟨hnd, hlen, fun h => absurd rfl h⟩
  | cons q t ih =>
      intro s hnd hlen
      have hstep : (appReducer s (.ADD_SEARCH_QUERY q)).searchHistory
          = (q :: s.searchHistory.filter (fun x => x != q)).take 10 := rfl
      have hnd' : (appReducer s (.ADD_SEARCH_QUERY q)).searchHistory.Nodup := by
        rw [hstep]
        exact history_step_nodup _ _ hnd
      have hlen' : (appReducer s (.ADD_SEARCH_QUERY q)).searchHistory.length ≤ 10 := by
        rw [hstep]
        exact history_step_len _ _
      have hfold : applyActions s ((q :: t).map .ADD_SEARCH_QUERY)
          = applyActions (appReducer s (.ADD_SEARCH_QUERY q)) (t.map .ADD_SEARCH_QUERY) := rfl
      rcases ih (appReducer s (.ADD_SEARCH_QUERY q)) hnd' hlen' with ⟨ih1, ih2, ih3⟩
      refine ⟨by rw [hfold]; exact ih1, by rw [hfold]; exact ih2, ?_⟩
      intro _
      rw [hfold]
      cases t with
      | nil =>
          simp only [List.map_nil, applyActions, List.foldl, List.getLast?_singleton]
          rw [hstep]
          exact history_step_head _ _
      | cons q2 t2 =>
          rw [ih3 (by simp)]
          simp [List.getLast?_cons_cons]

/-- C10: after any sequence of ADD_SEARCH_QUERY actions from the initial
state, the search history holds at most 10 entries, has no duplicate query,
and starts with the query added last. -/
theorem search_history_invariant (qs : List String) :
    (applyActions initialState (qs.map .ADD_SEARCH_QUERY)).searchHistory.length ≤ 10 ∧
    (applyActions initialState (qs.map .ADD_SEARCH_QUERY)).searchHistory.Nodup ∧
    (qs ≠ [] →
      (applyActions initialState (qs.map .ADD_SEARCH_QUERY)).searchHistory.head?
        = qs.getLast?) := by
  rcases searchHistory_invariant_aux qs initialState (by simp [initialState])
      (by simp [initialState]) with ⟨h1, h2, h3⟩
  exact ⟨h2, h1, h3⟩

theorem search_history_invariant_witness :
    (applyActions initialState
        (["a", "b", "a"].map .ADD_SEARCH_QUERY)).searchHistory.length ≤ 10 ∧
    (applyActions initialState
        (["a", "b", "a"].map .ADD_SEARCH_QUERY)).searchHistory.Nodup ∧
    (applyActions initialState
        (["a", "b", "a"].map .ADD_SEARCH_QUERY)).searchHistory.head?
        = (["a", "b", "a"] : List String).getLast? :=
  ⟨(search_history_invariant ["a", "b", "a"]).1,
   (search_history_invariant ["a", "b", "a"]).2.1,
   (search_history_invariant ["a", "b", "a"]).2.2 (by simp)⟩

/-! ## C2: exponential backoff and the max-attempts ceiling -/

/-- C2: while attempts remain, a connection error schedules a reconnect after
`baseReconnectDelay * 2 ^ attempts`; the timer firing performs the attempt
and increments the counter, so the delay before the (n+1)-th attempt is
`base * 2 ^ n`; once the counter has reached `maxReconnectAttempts`, an error
schedules nothing and surfaces "Max reconnection attempts reached" through
both the error state and the onError callback. -/
theorem backoff_schedule_spec :
    (∀ (cfg : SSEConfig) (s : SSEState),
        s.reconnectAttempts < cfg.maxReconnectAttempts →
        (stepSSE cfg s .errorFired).pendingReconnectDelay
          = some (cfg.baseReconnectDelay * 2 ^ s.reconnectAttempts)) ∧
    (∀ (cfg : SSEConfig) (s : SSEState),
        cfg.maxReconnectAttempts ≤ s.reconnectAttempts →
        (stepSSE cfg s .errorFired).pendingReconnectDelay = s.pendingReconnectDelay ∧
        (stepSSE cfg s .errorFired).error = some "Max reconnection attempts reached" ∧
        (stepSSE cfg s .errorFired).onErrorCallback
          = some "Max reconnection attempts reached") ∧
    (∀ (cfg : SSEConfig) (s : SSEState) (d : Nat),
        s.pendingReconnectDelay = some d →
        (stepSSE cfg s .timerFired).reconnectAttempts = s.reconnectAttempts + 1) := by
  refine ⟨?_, ?_, ?_⟩
  · intro cfg s h
    simp [stepSSE, scheduleReconnect, h]
  · intro cfg s h
    have hnot : ¬ s.reconnectAttempts < cfg.maxReconnectAttempts := not_lt.mpr h
    simp [stepSSE, hnot]
  · intro cfg s d h
    simp only [stepSSE, h, connectStep]
    split <;> rfl

theorem backoff_schedule_spec_witness :
    (stepSSE { maxReconnectAttempts := 5, baseReconnectDelay := 1000, hasSession := true }
        initialSSEState .errorFired).pendingReconnectDelay
      = some (1000 * 2 ^ initialSSEState.reconnectAttempts) ∧
    ((stepSSE { maxReconnectAttempts := 0, baseReconnectDelay := 1000, hasSession := true }
        initialSSEState .errorFired).error = some "Max reconnection attempts reached") ∧
    ((stepSSE { maxReconnectAttempts := 5, baseReconnectDelay := 1000, hasSession := true }
        { initialSSEState with pendingReconnectDelay := some 1000 }
        .timerFired).reconnectAttempts
      = { initialSSEState with pendingReconnectDelay := some 1000 }.reconnectAttempts + 1) :=
  ⟨backoff_schedule_spec.1 _ initialSSEState (by decide),
   (backoff_schedule_spec.2.1 _ initialSSEState (by decide)).2.1,
   backoff_schedule_spec.2.2 _ _ 1000 rfl⟩

/-! ## C8: the attempt counter resets on open and on manual reconnect -/

/-- C8: a successful open zeroes the reconnection attempt counter, so the
next failure schedules the base delay again; the exported reconnect helper
likewise zeroes the counter before connecting. -/
theorem attempt_counter_reset :
    (∀ (cfg : SSEConfig) (s : SSEState),
        (stepSSE cfg s .openFired).reconnectAttempts = 0) ∧
    (∀ (cfg : SSEConfig) (s : SSEState),
        (stepSSE cfg s .manualReconnect).reconnectAttempts = 0) ∧
    (∀ (cfg : SSEConfig) (s : SSEState),
        0 < cfg.maxReconnectAttempts →
        (stepSSE cfg (stepSSE cfg s .openFired) .errorFired).pendingReconnectDelay
          = some cfg.baseReconnectDelay) := by
  refine ⟨?_, ?_, ?_⟩
  · intro cfg s
    rfl
  · intro cfg s
    simp only [stepSSE, connectStep]
    split <;> rfl
  · intro cfg s h
    simp [stepSSE, scheduleReconnect, h]

theorem attempt_counter_reset_witness :
    (stepSSE { maxReconnectAttempts := 5, baseReconnectDelay := 1000, hasSession := true }
        { initialSSEState with reconnectAttempts := 3 } .openFired).reconnectAttempts = 0 ∧
    (stepSSE { maxReconnectAttempts := 5, baseReconnectDelay := 1000, hasSession := true }
        { initialSSEState with reconnectAttempts := 3 } .manualReconnect).reconnectAttempts
      = 0 ∧
    (stepSSE { maxReconnectAttempts := 5, baseReconnectDelay := 1000, hasSession := true }
        (stepSSE { maxReconnectAttempts := 5, baseReconnectDelay := 1000, hasSession := true }
          { initialSSEState with reconnectAttempts := 3 } .openFired)
        .errorFired).pendingReconnectDelay = some 1000 :=
  ⟨attempt_counter_reset.1 _ _,
   attempt_counter_reset.2.1 _ _,
   attempt_counter_reset.2.2 _ { initialSSEState with reconnectAttempts := 3 } (by decide)⟩

/-! ## C7: streaming text chunks -/

/-- C7: an incremental chunk extends a trailing assistant message in place
and adds nothing otherwise appends a fresh assistant message; a final
(non-incremental) chunk always appends a fresh assistant message. -/
theorem text_chunk_spec :
    (∀ (newId : String) (now : Nat) (l : List Message) (m : Message) (c : String),
        m.type = .assistant →
        handleTextChunk newId now (l ++ [m]) c true
          = l ++ [{ m with content := m.content ++ c }]) ∧
    (∀ (newId : String) (now : Nat) (prev : List Message) (c : String),
        (∀ m, prev.getLast? = some m → m.type ≠ .assistant) →
        handleTextChunk newId now prev c true = prev ++ [mkAssistantMessage newId now c]) ∧
    (∀ (newId : String) (now : Nat) (prev : List Message) (c : String),
        handleTextChunk newId now prev c false = prev ++ [mkAssistantMessage newId now c]) := by
  refine ⟨?_, ?_, ?_⟩
  · intro newId now l m c hm
    simp only [handleTextChunk, if_true, List.getLast?_concat]
    have hb : (m.type == MessageType.assistant) = true := by simp [hm]
    have hlen : (l ++ [m]).length - 1 = l.length := by simp
    simp only [hb, if_true, hlen]
    exact mapWithIndex_update_last l m (fun msg => { msg with content := msg.content ++ c })
  · intro newId now prev c h
    cases hp : prev.getLast? with
    | none => simp [handleTextChunk, hp]
    | some m =>
        have hne : (m.type == MessageType.assistant) = false :=
          beq_eq_false_iff_ne.mpr (h m hp)
        simp [handleTextChunk, hp, hne]
  · intro newId now prev c
    simp [handleTextChunk]

theorem text_chunk_spec_witness :
    (handleTextChunk "n" 1
        ([{ id := "u", type := .user, content := "q", timestamp := 0 }]
          ++ [{ id := "m1", type := .assistant, content := "Hel", timestamp := 0 }]) "lo" true
      = [{ id := "u", type := .user, content := "q", timestamp := 0 }]
          ++ [{ ({ id := "m1", type := .assistant, content := "Hel", timestamp := 0 } : Message)
                with content := ({ id := "m1", type := .assistant, content := "Hel",
                                   timestamp := 0 } : Message).content ++ "lo" }]) ∧
    (handleTextChunk "n" 1
        [{ id := "u", type := .user, content := "q", timestamp := 0 }] "lo" true
      = [{ id := "u", type := .user, content := "q", timestamp := 0 }]
          ++ [mkAssistantMessage "n" 1 "lo"]) ∧
    (handleTextChunk "n" 1
        [{ id := "m1", type := .assistant, content := "Hel", timestamp := 0 }] "lo" false
      = [{ id := "m1", type := .assistant, content := "Hel", timestamp := 0 }]
          ++ [mkAssistantMessage "n" 1 "lo"]) :=
  ⟨text_chunk_spec.1 "n" 1 [{ id := "u", type := .user, content := "q", timestamp := 0 }]
      { id := "m1", type := .assistant, content := "Hel", timestamp := 0 } "lo" rfl,
   text_chunk_spec.2.1 "n" 1
      [{ id := "u", type := .user, content := "q", timestamp := 0 }] "lo"
      (by
        intro m hm
        simp only [List.getLast?_singleton, Option.some.injEq] at hm
        subst hm
        decide),
   text_chunk_spec.2.2 "n" 1
      [{ id := "m1", type := .assistant, content := "Hel", timestamp := 0 }] "lo"⟩

/-! ## C5: show_product_details validation failures -/

/-- A show_product_details result that fails validation but also carries a
top-level string error field. -/
def c5cexResult : ResultVal :=
  .obj none
    { productPresent := false,
      validation := some
        { valid := some false, validationError := some "bad id",
          suggestions := some ["a"] },
      stringError := some "boom" }

/-- C5 (counterexample): when the result also carries a top-level string
`error`, the renderer returns the generic banner with that string and no
suggestions, not a banner carrying the validation error message and its
suggestions. -/
theorem show_details_error_banner_cex :
    renderFunctionCall "show_product_details" [] c5cexResult
      = .errorBanner "Validation Error" "boom" [] ∧
    renderFunctionCall "show_product_details" [] c5cexResult
      ≠ .errorBanner "Invalid Product ID" "bad id" ["a"] := by
  decide

/-- C5 (amended): when a show_product_details result fails validation
(`valid === false` or no product) and carries no top-level string `error`
field, the renderer returns the Invalid Product ID banner with the validation
error message (or the built-in default) and at most the first five supplied
suggestions, never the product card. -/
theorem show_details_error_banner_amended (parameters : Params) (res : ResultVal)
    (herr : (rawOf res).stringError = none)
    (htrig : (rawOf res).productPresent = false ∨
      (∃ v, (rawOf res).validation = some v ∧ v.valid = some false)) :
    renderFunctionCall "show_product_details" parameters res
      = .errorBanner "Invalid Product ID"
          (((rawOf res).validation.bind (fun v => v.validationError)).getD
            "Product not found or not in recent searches.")
          ((((rawOf res).validation.bind (fun v => v.suggestions)).getD []).take 5) ∧
    renderFunctionCall "show_product_details" parameters res
      ≠ .component .productCard := by
  have htrim : jsTrim "show_product_details" = "show_product_details" := by decide
  have hlook : jsObjectLookup "show_product_details"
      = some (.own ComponentTag.productCard) := rfl
  have hcond : (("show_product_details" == "show_product_details") &&
      (!(rawOf res).productPresent ||
        (match (rawOf res).validation with
         | some v => v.valid == some false
         | none => false))) = true := by
    rcases htrig with h | ⟨v, hv, hvalid⟩
    · simp [h]
    · rw [hv]
      simp [hvalid]
  have hmain : renderFunctionCall "show_product_details" parameters res
      = .errorBanner "Invalid Product ID"
          (((rawOf res).validation.bind (fun v => v.validationError)).getD
            "Product not found or not in recent searches.")
          ((((rawOf res).validation.bind (fun v => v.suggestions)).getD []).take 5) := by
    simp only [renderFunctionCall, htrim, hlook, herr, hcond]
    simp
  refine ⟨hmain, ?_⟩
  rw [hmain]
  simp

theorem show_details_error_banner_amended_witness :
    ((rawOf (ResultVal.obj none
        { productPresent := false,
          validation := some
            { valid := some false, validationError := some "bad id",
              suggestions := some ["a", "b", "c", "d", "e", "f"] },
          stringError := none })).stringError = none) ∧
    (renderFunctionCall "show_product_details" []
        (ResultVal.obj none
          { productPresent := false,
            validation := some
              { valid := some false, validationError := some "bad id",
                suggestions := some ["a", "b", "c", "d", "e", "f"] },
            stringError := none })
      = .errorBanner "Invalid Product ID"
          (((rawOf (ResultVal.obj none
              { productPresent := false,
                validation := some
                  { valid := some false, validationError := some "bad id",
                    suggestions := some ["a", "b", "c", "d", "e", "f"] },
                stringError := none })).validation.bind (fun v => v.validationError)).getD
            "Product not found or not in recent searches.")
          ((((rawOf (ResultVal.obj none
              { productPresent := false,
                validation := some
                  { valid := some false, validationError := some "bad id",
                    suggestions := some ["a", "b", "c", "d", "e", "f"] },
                stringError := none })).validation.bind (fun v => v.suggestions)).getD
            []).take 5)) :=
  ⟨rfl,
   (show_details_error_banner_amended []
      (ResultVal.obj none
        { productPresent := false,
          validation := some
            { valid := some false, validationError := some "bad id",
              suggestions := some ["a", "b", "c", "d", "e", "f"] },
          stringError := none })
      rfl
      (Or.inl rfl)).1⟩

/-! ## C6: unknown function names and the typed fallback -/

/-- C6 (counterexample): the name `toString` is not a key of the
`FunctionComponents` table and does not contain `cart`, yet JS bracket
access finds the truthy inherited `Object.prototype.toString`, so the
renderer proceeds to render that inherited value instead of returning the
typed Unknown Function Call fallback. -/
theorem unknown_function_fallback_cex :
    FunctionComponents.lookup (jsTrim "toString") = none ∧
    containsSubstr (jsTrim "toString") "cart" = false ∧
    renderFunctionCall "toString" [] .absent = .inheritedRender "toString" ∧
    renderFunctionCall "toString" [] .absent ≠ .unknownFunction "toString" [] := by
  decide

/-- C6 (amended): a function call whose trimmed name is not a key of the
lookup table, does not contain the substring cart, and does not collide with
a property inherited from Object.prototype renders the typed
unknown-function element carrying the original name and parameters; the
embedding is a total function, so no lookup can fail at runtime. Names that
do collide with an inherited property find a truthy value via the prototype
chain and bypass the fallback. -/
theorem unknown_function_fallback_amended (name : String) (parameters : Params)
    (res : ResultVal)
    (hlook : FunctionComponents.lookup (jsTrim name) = none)
    (hproto : objectPrototypeProps.contains (jsTrim name) = false)
    (hcart : containsSubstr (jsTrim name) "cart" = false) :
    renderFunctionCall name parameters res = .unknownFunction name parameters := by
  have hproto2 : ¬ jsTrim name ∈ objectPrototypeProps := by
    simpa using hproto
  simp [renderFunctionCall, jsObjectLookup, hlook, hproto2, hcart]

theorem unknown_function_fallback_amended_witness :
    FunctionComponents.lookup (jsTrim "unknown_function") = none ∧
    objectPrototypeProps.contains (jsTrim "unknown_function") = false ∧
    containsSubstr (jsTrim "unknown_function") "cart" = false ∧
    renderFunctionCall "unknown_function" [("query", "test")] .absent
      = .unknownFunction "unknown_function" [("query", "test")] :=
  ⟨by decide, by decide, by decide,
   unknown_function_fallback_amended "unknown_function" [("query", "test")] .absent
     (by decide) (by decide) (by decide)⟩

/-! ## C9: saved-session validation on mount -/

/-- C9: a 404 or 410 on the saved-session context fetch, any other non-OK
status, and a network failure all drop the saved id and create a fresh
session; only an OK response activates the saved id. -/
theorem session_validation_spec :
    (∀ id : String, validateOrCreate (some id) (.http 404) = .createFresh true) ∧
    (∀ id : String, validateOrCreate (some id) (.http 410) = .createFresh true) ∧
    (∀ (id : String) (status : Nat), responseOk status = false →
        validateOrCreate (some id) (.http status) = .createFresh true) ∧
    (∀ id : String, validateOrCreate (some id) .networkError = .createFresh true) ∧
    (∀ (id : String) (status : Nat), responseOk status = true →
        validateOrCreate (some id) (.http status) = .useSaved id) ∧
    (∀ (id : String) (status : Nat),
        validateOrCreate (some id) (.http status) = .useSaved id →
        responseOk status = true) := by
  have hnotok : ∀ (id : String) (status : Nat), responseOk status = false →
      validateOrCreate (some id) (.http status) = .createFresh true := by
    intro id status h
    by_cases h4 : (status == 404 || status == 410) = true
    · simp [validateOrCreate, h4]
    · simp [validateOrCreate, h4, h]
  refine ⟨fun id => rfl, fun id => rfl, hnotok, fun id => rfl, ?_, ?_⟩
  · intro id status h
    have hrange : 200 ≤ status ∧ status < 300 := by
      simpa [responseOk] using h
    have h404 : (status == 404) = false := by
      simp only [beq_eq_false_iff_ne, ne_eq]
      omega
    have h410 : (status == 410) = false := by
      simp only [beq_eq_false_iff_ne, ne_eq]
      omega
    simp [validateOrCreate, h404, h410, h]
  · intro id status h
    by_cases hok : responseOk status = true
    · exact hok
    · rw [hnotok id status (Bool.not_eq_true _ ▸ hok)] at h
      exact absurd h (by simp)

theorem session_validation_spec_witness :
    validateOrCreate (some "s") (.http 404) = .createFresh true ∧
    validateOrCreate (some "s") (.http 410) = .createFresh true ∧
    validateOrCreate (some "s") (.http 500) = .createFresh true ∧
    validateOrCreate (some "s") .networkError = .createFresh true ∧
    validateOrCreate (some "s") (.http 200) = .useSaved "s" ∧
    responseOk 200 = true :=
  ⟨session_validation_spec.1 "s",
   session_validation_spec.2.1 "s",
   session_validation_spec.2.2.1 "s" 500 (by decide),
   session_validation_spec.2.2.2.1 "s",
   session_validation_spec.2.2.2.2.1 "s" 200 (by decide),
   session_validation_spec.2.2.2.2.2 "s" 200 (by decide)⟩

end TechChallenge
